import Mathlib

/-!
# Verification of the mcp-valve CLI core (src/main.rs)

A shallow embedding, in Lean 4, of the pure logic of the Rust program:
the identifier sanitizer and template expander, the MCP client response
handling, the request-id counter, the daemon liveness probe and stop
sequence, the socket-path computations, and the IPC server dispatch.
External effects (filesystem reads, process probes, the engine process,
JSON parsing by serde) are modelled as explicit inputs or abstract
function parameters; every definition mirrors the corresponding Rust
function in src/main.rs.
-/

namespace McpValve

/-! ## Character-level models of Rust std behaviour -/

/-- Models Rust `char::is_alphanumeric` (true iff the character is in the
Unicode Alphabetic category or the Nd/Nl/No number categories).  The model
is exact on the range U+0000..U+00FF (ASCII and Latin-1); codepoints above
U+00FF are mapped to `false`, and no theorem in this development depends on
the value at any codepoint above U+00FF. -/
def rust_is_alphanumeric (c : Char) : Bool :=
  let n := c.toNat
  (0x30 ≤ n && n ≤ 0x39) || (0x41 ≤ n && n ≤ 0x5A) || (0x61 ≤ n && n ≤ 0x7A) ||
  (n == 0xAA) || (n == 0xB5) || (n == 0xBA) ||
  (0xB2 ≤ n && n ≤ 0xB3) || (n == 0xB9) || (0xBC ≤ n && n ≤ 0xBE) ||
  (0xC0 ≤ n && n ≤ 0xD6) || (0xD8 ≤ n && n ≤ 0xF6) || (0xF8 ≤ n && n ≤ 0xFF)

/-- Models Rust `char::is_whitespace`: the 25 codepoints with the Unicode
White_Space property. -/
def rust_is_whitespace (c : Char) : Bool :=
  let n := c.toNat
  (0x09 ≤ n && n ≤ 0x0D) || (n == 0x20) || (n == 0x85) || (n == 0xA0) ||
  (n == 0x1680) || (0x2000 ≤ n && n ≤ 0x200A) || (n == 0x2028) ||
  (n == 0x2029) || (n == 0x202F) || (n == 0x205F) || (n == 0x3000)

/-- Models Rust `str::trim`: strip leading and trailing whitespace.
Strings are modelled as `List Char`. -/
def rust_trim (s : List Char) : List Char :=
  ((s.dropWhile rust_is_whitespace).reverse.dropWhile rust_is_whitespace).reverse

/-- Models Rust `str::parse::<i32>`: an optional sign followed by one or
more ASCII digits, with the value required to fit in a signed 32-bit
integer. -/
def parse_i32 (s : List Char) : Option Int :=
  let signDigits : Int × List Char :=
    match s with
    | '+' :: rest => (1, rest)
    | '-' :: rest => (-1, rest)
    | _ => (1, s)
  let sign := signDigits.1
  let digits := signDigits.2
  if digits = [] || !(digits.all Char.isDigit) then none
  else
    let mag : Nat := digits.foldl (fun acc c => acc * 10 + (c.toNat - '0'.toNat)) 0
    let v : Int := sign * (mag : Int)
    if -(2 ^ 31) ≤ v && v < 2 ^ 31 then some v else none

/-- Byte length of a string (Rust `str::len`), as the sum of the UTF-8
sizes of its characters. -/
def rust_len_bytes (s : List Char) : Nat :=
  (s.map Char.utf8Size).sum

/-! ## Sanitizer (src/main.rs `sanitize_server_name`, lines 198-202) -/

/-- `sanitize_server_name`: keep only alphanumeric characters (in the
Rust/Unicode sense), hyphens and underscores. -/
def sanitize_server_name (name : List Char) : List Char :=
  name.filter (fun c => rust_is_alphanumeric c || c == '-' || c == '_')

/-- The character set `[A-Za-z0-9_-]` named by the specification's
sanitization claim (written from the spec's words, for comparison with
`sanitize_server_name`). -/
def ascii_safe (c : Char) : Bool :=
  ('0' ≤ c && c ≤ '9') || ('A' ≤ c && c ≤ 'Z') || ('a' ≤ c && c ≤ 'z') ||
  (c == '-') || (c == '_')

/-! ## Template expansion (src/main.rs `expand_template_vars`, lines 212-225) -/

/-- The placeholder `{profile_dir}` as a character list. -/
def pat_profile_dir : List Char := "\x7bprofile_dir\x7d".data

/-- The placeholder `{pid}` as a character list. -/
def pat_pid : List Char := "\x7bpid\x7d".data

/-- The placeholder `{cwd}` as a character list. -/
def pat_cwd : List Char := "\x7bcwd\x7d".data

/-- The `{profile_dir}` substitution value:
`PathBuf::from(".mcp-profile").join(&safe_server_name)` rendered as a
string, i.e. `.mcp-profile/` followed by the sanitized server name. -/
def profile_dir_chars (serverName : List Char) : List Char :=
  ".mcp-profile/".data ++ sanitize_server_name serverName

/-- Whether the first list is an initial segment of the second (the
pattern-match test of Rust `str::replace`). -/
def isPrefixList : List Char → List Char → Bool
  | [], _ => true
  | _ :: _, [] => false
  | a :: as, b :: bs => a == b && isPrefixList as bs

/-- Fuel-indexed worker for `replaceList`.  The fuel only serves to make
the recursion structural; `replaceList` always supplies enough fuel, and
`replaceFuel_congr` (below) shows the result is fuel-independent from
`s.length` on. -/
def replaceFuel (p v : List Char) : Nat → List Char → List Char
  | 0, s => s
  | _ + 1, [] => []
  | fuel + 1, c :: t =>
    if p ≠ [] ∧ isPrefixList p (c :: t) = true then
      v ++ replaceFuel p v fuel ((c :: t).drop p.length)
    else
      c :: replaceFuel p v fuel t

/-- Models Rust `str::replace(p, v)` for a non-empty pattern `p`: replace
every non-overlapping occurrence of `p`, scanning left to right.  (The
patterns used by `expand_template_vars` are the three non-empty literals
above, so the empty-pattern corner of Rust's `replace` is irrelevant and
the guard simply skips it.) -/
def replaceList (p v s : List Char) : List Char :=
  replaceFuel p v s.length s

/-- `expand_template_vars`: the chained
`arg.replace("{profile_dir}", ..).replace("{pid}", ..).replace("{cwd}", ..)`
of the source, with the process id and current directory supplied as
explicit inputs `pidStr` and `cwd`. -/
def expand_template_vars (arg serverName pidStr cwd : List Char) : List Char :=
  replaceList pat_cwd cwd
    (replaceList pat_pid pidStr
      (replaceList pat_profile_dir (profile_dir_chars serverName) arg))

/-- Fuel-indexed worker for `substSpec`. -/
def substFuel (v1 v2 v3 : List Char) : Nat → List Char → List Char
  | 0, s => s
  | _ + 1, [] => []
  | fuel + 1, c :: t =>
    if isPrefixList pat_profile_dir (c :: t) = true then
      v1 ++ substFuel v1 v2 v3 fuel ((c :: t).drop pat_profile_dir.length)
    else if isPrefixList pat_pid (c :: t) = true then
      v2 ++ substFuel v1 v2 v3 fuel ((c :: t).drop pat_pid.length)
    else if isPrefixList pat_cwd (c :: t) = true then
      v3 ++ substFuel v1 v2 v3 fuel ((c :: t).drop pat_cwd.length)
    else
      c :: substFuel v1 v2 v3 fuel t

/-- Written from the spec's words: a *single, simultaneous* left-to-right
pass that substitutes each occurrence of the three recognized placeholders
independently (`v1` for `{profile_dir}`, `v2` for `{pid}`, `v3` for
`{cwd}`), never rescans substituted text, and leaves everything else
verbatim.  At any position at most one placeholder can match, so the order
of the three tests is immaterial. -/
def substSpec (v1 v2 v3 s : List Char) : List Char :=
  substFuel v1 v2 v3 s.length s

/-- Whether the pattern `p` occurs (as a contiguous substring) in `s`;
used to state the spec's "templates containing none of the recognized
placeholders". -/
def containsPat (p s : List Char) : Bool :=
  match s with
  | [] => false
  | c :: t => isPrefixList p (c :: t) || containsPat p t

/-! ## JSON values (serde_json `Value`) -/

/-- A JSON value, mirroring `serde_json::Value`.  Numbers are modelled as
integers: the only numbers the embedded code constructs or inspects are
request ids. -/
inductive Json where
  | null : Json
  | bool : Bool → Json
  | num : Int → Json
  | str : String → Json
  | arr : List Json → Json
  | obj : List (String × Json) → Json

/-- Key lookup in an object's field list (first match). -/
def Json.lookupField : List (String × Json) → String → Option Json
  | [], _ => none
  | (k, v) :: rest, key => if k = key then some v else Json.lookupField rest key

/-- `Value::get(key)`: `Some` field value on objects, `None` otherwise. -/
def Json.get : Json → String → Option Json
  | .obj fields, key => Json.lookupField fields key
  | _, _ => none

/-- `value[key]` (the `Index` impl on `Value`): the field value, or `Null`
when the key is missing or the value is not an object. -/
def Json.index (v : Json) (key : String) : Json :=
  (Json.get v key).getD .null

/-- `Value::as_str`. -/
def Json.as_str : Json → Option String
  | .str s => some s
  | _ => none

/-- `Value::as_bool`. -/
def Json.as_bool : Json → Option Bool
  | .bool b => some b
  | _ => none

/-- `Value::as_array`. -/
def Json.as_array : Json → Option (List Json)
  | .arr xs => some xs
  | _ => none

/-- Escape one character as inside a serde_json string literal. -/
def escapeChar (c : Char) : String :=
  if c = '"' then "\\\""
  else if c = '\\' then "\\\\"
  else if c = '\n' then "\\n"
  else if c = '\r' then "\\r"
  else if c = '\t' then "\\t"
  else if c.toNat < 0x20 then "\\u00" ++ String.mk [Char.ofNat (0x30 + c.toNat / 16), Char.ofNat (if c.toNat % 16 < 10 then 0x30 + c.toNat % 16 else 0x57 + c.toNat % 16)]
  else String.mk [c]

/-- Escape a string as inside a serde_json string literal. -/
def escapeString (s : String) : String :=
  String.join (s.data.map escapeChar)

mutual

/-- Compact rendering of a JSON value, as `serde_json`'s `Display`
produces it (used only to build human-readable error messages; no theorem
below inspects its output). -/
def Json.render : Json → String
  | .null => "null"
  | .bool true => "true"
  | .bool false => "false"
  | .num n => toString n
  | .str s => "\"" ++ escapeString s ++ "\""
  | .arr xs => "[" ++ Json.renderList xs ++ "]"
  | .obj fs => "\x7b" ++ Json.renderFields fs ++ "\x7d"

/-- Comma-separated rendering of array elements. -/
def Json.renderList : List Json → String
  | [] => ""
  | [x] => Json.render x
  | x :: y :: xs => Json.render x ++ "," ++ Json.renderList (y :: xs)

/-- Comma-separated rendering of object fields. -/
def Json.renderFields : List (String × Json) → String
  | [] => ""
  | [(k, v)] => "\"" ++ escapeString k ++ "\":" ++ Json.render v
  | (k, v) :: f :: fs =>
    "\"" ++ escapeString k ++ "\":" ++ Json.render v ++ "," ++ Json.renderFields (f :: fs)

end

/-! ## MCP client (src/main.rs `McpClient`, lines 231-396) -/

/-- An error produced by `McpClient::call_tool` / `send_request`:
either a protocol-level failure (`error` field in the response envelope,
reported as `MCP Error: ...`) or a tool-level failure (`isError: true`
inside an otherwise successful result, reported as `Tool Error: ...`). -/
inductive CallErr where
  | protocol (err : Json)
  | tool (msg : String)

/-- The display string of a `CallErr` (`anyhow::Error::to_string`). -/
def CallErr.render : CallErr → String
  | .protocol e => "MCP Error: " ++ e.render
  | .tool msg => msg

/-- The response-side logic of `McpClient::send_request` (lines 316-332):
a response whose envelope has an `error` field is a protocol failure;
any other envelope is returned unchanged.  (Writing the request line and
reading the response line are the transport, modelled as the `response`
input itself.) -/
def send_request_check (response : Json) : Except CallErr Json :=
  match Json.get response "error" with
  | some e => .error (.protocol e)
  | none => .ok response

/-- The error-message extraction of `call_tool` (lines 363-370):
`result.get("content")`, as array, first item, its `"text"` field, as
string. -/
def tool_error_text (result : Json) : Option String :=
  (((Json.get result "content").bind Json.as_array).bind List.head?).bind
    (fun item => (Json.get item "text").bind Json.as_str)

/-- The response-side logic of `McpClient::call_tool` (lines 346-377),
as a function of the engine's response envelope: protocol check, then the
`isError` tool-failure convention on `response["result"]`. -/
def call_tool_result (response : Json) : Except CallErr Json :=
  match send_request_check response with
  | .error e => .error e
  | .ok resp =>
    let result := Json.index resp "result"
    match (Json.get result "isError").bind Json.as_bool with
    | some true =>
      .error (.tool ("Tool Error: " ++ (tool_error_text result).getD "Tool execution failed"))
    | _ => .ok result

/-- The response-side logic of `McpClient::list_tools` (lines 379-389). -/
def list_tools_result (response : Json) : Except CallErr Json :=
  match send_request_check response with
  | .error e => .error e
  | .ok resp => .ok (Json.index resp "result")

/-- `McpClient::next_id` (lines 341-344): increment the session's `u64`
request-id counter and return the new value. -/
def next_id (requestId : Nat) : Nat × Nat :=
  let r := (requestId + 1) % 2 ^ 64
  (r, r)

/-- The session operations that touch the request-id counter.
`initialize` (line 292), `call_tool` (line 349) and `list_tools`
(line 382) each allocate one id via `next_id`; `send_notification`
(lines 334-339) writes a line and allocates none. -/
inductive SessionOp where
  | initOp
  | callOp
  | listToolsOp
  | notifyOp
deriving DecidableEq

/-- Whether a session operation allocates a request id. -/
def opAllocates : SessionOp → Bool
  | .notifyOp => false
  | _ => true

/-- Run a sequence of session operations from a given counter value,
returning the final counter and the request ids allocated, in order. -/
def runOps : Nat → List SessionOp → Nat × List Nat
  | rid, [] => (rid, [])
  | rid, op :: rest =>
    if opAllocates op then
      let p := next_id rid
      let q := runOps p.1 rest
      (q.1, p.2 :: q.2)
    else
      runOps rid rest

/-! ## Daemon manager (src/main.rs `DaemonManager`, lines 402-619) -/

/-- The outcome of reading the PID file (`fs::read_to_string`):
the file may be absent, present but unreadable, or have contents `s`. -/
inductive FileRead where
  | absent
  | unreadable
  | content (s : List Char)
deriving DecidableEq

/-- The outcome of the non-signaling existence probe
`kill(Pid::from_raw(pid), None)`. -/
inductive ProbeResult where
  | ok
  | esrch
  | eperm
  | other
deriving DecidableEq

/-- An error from `DaemonManager::is_running`: the PID file exists but
cannot be read, or its contents do not parse as an `i32`. -/
inductive RunErr where
  | readFailed
  | invalidPid (s : List Char)
deriving DecidableEq

/-- `DaemonManager::is_running` (lines 437-455), as a function of the PID
file state and of the probe outcome for the parsed pid. -/
def is_running_model (pidFile : FileRead) (probe : Int → ProbeResult) :
    Except RunErr Bool :=
  match pidFile with
  | .absent => .ok false
  | .unreadable => .error .readFailed
  | .content s =>
    match parse_i32 (rust_trim s) with
    | none => .error (.invalidPid (rust_trim s))
    | some pid =>
      match probe pid with
      | .ok => .ok true
      | .esrch => .ok false
      | .eperm => .ok true
      | .other => .ok false

/-- `PathBuf::join` on Unix for the paths involved here: an absolute
component replaces the base path; otherwise it is appended after a `/`. -/
def rust_path_join (base comp : String) : String :=
  if comp.data.head? = some '/' then comp else base ++ "/" ++ comp

/-- The socket file name `format!("{}-{}.sock", serverName, pidText)`. -/
def socket_file_name (serverName pidText : String) : String :=
  serverName ++ "-" ++ pidText ++ ".sock"

/-- The socket path bound by `run_daemon` (line 637):
`/tmp/.mcp` joined with `<server_name>-<own pid>.sock`. -/
def run_daemon_socket_path (serverName : String) (daemonPid : Nat) : String :=
  rust_path_join "/tmp/.mcp" (socket_file_name serverName (toString daemonPid))

/-- The socket path reconstructed by `DaemonManager::get_socket_path`
(lines 427-435) from the trimmed PID-file contents. -/
def get_socket_path_model (serverName : String) (pidFileContents : List Char) : String :=
  rust_path_join "/tmp/.mcp"
    (socket_file_name serverName (String.mk (rust_trim pidFileContents)))

/-- The socket path `DaemonManager::start` polls for (lines 513-514),
built from the spawned child's pid. -/
def start_expected_socket_path (serverName : String) (childPid : Nat) : String :=
  rust_path_join "/tmp/.mcp" (socket_file_name serverName (toString childPid))

/-- Written from the spec's words: the claimed socket path
`<shared-tmp-dir>/<sanitize(identifier)>-<daemon-pid>.sock`, with the
*sanitized* identifier as the path component. -/
def spec_socket_path (serverName : String) (daemonPid : Nat) : String :=
  "/tmp/.mcp/" ++ String.mk (sanitize_server_name serverName.data) ++ "-" ++
    toString daemonPid ++ ".sock"

/-- Errors of `DaemonManager::stop` (lines 546-591). -/
inductive StopErr where
  | notRunning
  | probeFailed (e : RunErr)
  | readFailed
  | invalidPid
  | sigtermFailed
  | sigkillFailed
deriving DecidableEq

/-- How `stop` terminated: within the grace window, or by SIGKILL. -/
inductive StopOutcome where
  | graceful
  | forced
deriving DecidableEq

/-- The environment `stop` runs against: the (fixed) PID file state, the
probe outcome observed by the k-th `is_running` call (k = 0 is the initial
check, k = 1.. are the grace-window polls), whether the SIGTERM/SIGKILL
`kill` calls succeed, and whether the derived socket file exists. -/
structure StopEnv where
  pidFile : FileRead
  probes : Nat → Int → ProbeResult
  sigtermOk : Bool
  sigkillOk : Bool
  socketExists : Bool

/-- The grace-window poll loop of `stop` (lines 564-576) followed by the
forced-kill tail (lines 579-590).  `k` indexes the next `is_running`
probe; `n` is the remaining poll budget (10 polls of 500 ms).  The result
carries the outcome, whether the PID file was removed, and whether the
socket file was removed (the code removes it only when it exists, so a
removal happens exactly when `socketExists`). -/
def stop_poll (env : StopEnv) (k : Nat) : Nat → Except StopErr (StopOutcome × Bool × Bool)
  | 0 =>
    if env.sigkillOk then .ok (.forced, true, env.socketExists)
    else .error .sigkillFailed
  | n + 1 =>
    match is_running_model env.pidFile (env.probes k) with
    | .error e => .error (.probeFailed e)
    | .ok true => stop_poll env (k + 1) n
    | .ok false => .ok (.graceful, true, env.socketExists)

/-- `DaemonManager::stop` (lines 546-591): fail if not running; re-read
and parse the PID file; send SIGTERM; poll liveness up to 10 times; on
cessation remove PID and socket files (graceful); otherwise send SIGKILL,
remove both, and report a forced stop. -/
def stop_model (env : StopEnv) : Except StopErr (StopOutcome × Bool × Bool) :=
  match is_running_model env.pidFile (env.probes 0) with
  | .error e => .error (.probeFailed e)
  | .ok false => .error .notRunning
  | .ok true =>
    match env.pidFile with
    | .absent => .error .readFailed
    | .unreadable => .error .readFailed
    | .content s =>
      match parse_i32 (rust_trim s) with
      | none => .error .invalidPid
      | some _ =>
        if env.sigtermOk then stop_poll env 1 10
        else .error .sigtermFailed

/-! ## IPC server and client (src/main.rs lines 673-776) -/

/-- An error on which `handle_client` returns `Err` (and hence writes no
response line): an oversized request line, a line that does not parse as
JSON, a request without a string `method`, or a `tools/call` request
without a string tool name. -/
inductive ClientErr where
  | tooLarge (bytes : Nat)
  | invalidJson
  | missingMethod
  | missingToolName
deriving DecidableEq

/-- `MAX_REQUEST_SIZE` (line 674). -/
def max_request_size : Nat := 1024 * 1024

/-- The success-response envelope built by `handle_client`
(`{"jsonrpc":"2.0","id":<id>,"result":<result>}`). -/
def mkOkEnvelope (id result : Json) : Json :=
  .obj [("jsonrpc", .str "2.0"), ("id", id), ("result", result)]

/-- The error-response envelope built by `handle_client`
(`{"jsonrpc":"2.0","id":<id>,"error":{"message":<msg>}}`). -/
def mkErrEnvelope (id : Json) (msg : String) : Json :=
  .obj [("jsonrpc", .str "2.0"), ("id", id), ("error", .obj [("message", .str msg)])]

/-- The dispatch core of `handle_client` (lines 687-729), acting on the
parsed request.  The daemon's session is abstracted by `callTool` (its
`call_tool`, an engine interaction) and `listTools` (its `list_tools`).
Session-level errors are caught and encoded as error envelopes; only a
missing method or tool name aborts the connection without a response. -/
def handle_client_core (callTool : String → Json → Except CallErr Json)
    (listTools : Except CallErr Json) (request : Json) : Except ClientErr Json :=
  match Json.as_str (Json.index request "method") with
  | none => .error .missingMethod
  | some method =>
    if method = "tools/call" then
      let params := Json.index request "params"
      match Json.as_str (Json.index params "name") with
      | none => .error .missingToolName
      | some toolName =>
        match callTool toolName (Json.index params "arguments") with
        | .ok result => .ok (mkOkEnvelope (Json.index request "id") result)
        | .error e => .ok (mkErrEnvelope (Json.index request "id") e.render)
    else if method = "tools/list" then
      match listTools with
      | .ok result => .ok (mkOkEnvelope (Json.index request "id") result)
      | .error e => .ok (mkErrEnvelope (Json.index request "id") e.render)
    else
      .ok (mkErrEnvelope (Json.index request "id") ("Unknown method: " ++ method))

/-- `handle_client` (lines 673-735) on the single request line read from
the connection: reject a line longer than `MAX_REQUEST_SIZE` bytes before
anything else, then parse the trimmed line as JSON (the serde parser is
abstracted as `parse`), then dispatch.  The `Ok` value is the one
response envelope written back. -/
def handle_client_line (parse : List Char → Option Json)
    (callTool : String → Json → Except CallErr Json)
    (listTools : Except CallErr Json) (line : List Char) : Except ClientErr Json :=
  if rust_len_bytes line > max_request_size then
    .error (.tooLarge (rust_len_bytes line))
  else
    match parse (rust_trim line) with
    | none => .error .invalidJson
    | some request => handle_client_core callTool listTools request

/-- The request envelope `call_via_daemon` writes (lines 751-759). -/
def mkDaemonRequest (tool : String) (args : Json) : Json :=
  .obj [("jsonrpc", .str "2.0"), ("id", .num 1), ("method", .str "tools/call"),
        ("params", .obj [("name", .str tool), ("arguments", args)])]

/-- `call_via_daemon` (lines 737-776) composed with the daemon-side
`handle_client`: the client builds the `tools/call` envelope, the daemon
dispatches it against its session, and the client surfaces an `error`
field as a failure or extracts `response["result"]`.  The wire transport
(one serialized request line down, one response line back) is modelled as
faithful delivery of the envelopes; when `handle_client` aborts without
writing a response, the client's read yields no JSON line and its parse
step fails, which we model as the `Invalid JSON-RPC response` error. -/
def call_via_daemon_model (respOf : String → Json → Json)
    (listTools : Except CallErr Json) (tool : String) (args : Json) :
    Except String Json :=
  match handle_client_core (fun n a => call_tool_result (respOf n a)) listTools
      (mkDaemonRequest tool args) with
  | .error _ => .error "Invalid JSON-RPC response"
  | .ok response =>
    match Json.get response "error" with
    | some e => .error ("Daemon error: " ++ e.render)
    | none => .ok (Json.index response "result")

/-- The direct (non-daemon) path of `Commands::Call` (lines 879-882): a
fresh session's `call_tool` against the same engine.  The deterministic
engine is the same `respOf`: the envelope it answers to a `tools/call`
with a given name and arguments, independent of the request id. -/
def direct_call_model (respOf : String → Json → Json) (tool : String)
    (args : Json) : Except CallErr Json :=
  call_tool_result (respOf tool args)

/-! ## Helper lemmas -/

theorem string_mk_data : ∀ s : String, String.mk s.data = s
  | ⟨_⟩ => rfl

theorem sanitize_mem_keep {c : Char} {s : List Char} (h : c ∈ sanitize_server_name s) :
    (rust_is_alphanumeric c || c == '-' || c == '_') = true := by
  have h' : c ∈ List.filter (fun c => rust_is_alphanumeric c || c == '-' || c == '_') s := h
  exact (List.mem_filter.mp h').2

theorem sanitize_no_brace {c : Char} {s : List Char} (h : c ∈ sanitize_server_name s) :
    c ≠ '\x7b' ∧ c ≠ '\x7d' := by
  have hk := sanitize_mem_keep h
  constructor <;> rintro rfl <;> exact absurd hk (by decide)

/-! ## C10: sanitization is idempotent -/

/-- C10: `sanitize` is idempotent: for every string `s`,
`sanitize(sanitize(s)) = sanitize(s)`, so every filesystem name derived
from an already-sanitized identifier is stable under re-sanitization. -/
theorem sanitize_server_name_idempotent (s : List Char) :
    sanitize_server_name (sanitize_server_name s) = sanitize_server_name s := by
  simp [sanitize_server_name, List.filter_filter]

/-! ## C2: the sanitized alphabet -/

/-- C2 counterexample: the claim says every character of a sanitized
identifier lies in `[A-Za-z0-9_-]`, but Rust's `char::is_alphanumeric` is
Unicode-aware: `sanitize("é") = "é"`, and `é` is outside that set. -/
theorem sanitize_ascii_claim_counterexample :
    sanitize_server_name "é".data = ['é'] ∧
    (sanitize_server_name "é".data).all ascii_safe = false := by
  decide

/-- C2 (amended): every character of a sanitized identifier is Unicode
alphanumeric, a hyphen, or an underscore; in particular no path-separator
character (`/` or `\`), and no `.`, survives sanitization. -/
theorem sanitize_chars_safe (s : List Char) (c : Char)
    (h : c ∈ sanitize_server_name s) :
    (rust_is_alphanumeric c || c == '-' || c == '_') = true ∧
    c ≠ '/' ∧ c ≠ '\\' ∧ c ≠ '.' := by
  have hk := sanitize_mem_keep h
  refine ⟨hk, ?_, ?_, ?_⟩ <;> rintro rfl <;> exact absurd hk (by decide)

theorem sanitize_chars_safe_witness :
    'a' ∈ sanitize_server_name "a/b".data ∧
    ((rust_is_alphanumeric 'a' || 'a' == '-' || 'a' == '_') = true ∧
     'a' ≠ '/' ∧ 'a' ≠ '\\' ∧ 'a' ≠ '.') :=
  ⟨by decide, sanitize_chars_safe "a/b".data 'a' (by decide)⟩

/-! ## C1: the daemon socket path -/

/-- C1 counterexample: the claim says the socket path embeds the
*sanitized* identifier, but all three path computations in the code use
the raw `server_name`: for the identifier `a/b` (sanitized: `ab`) the
daemon binds `/tmp/.mcp/a/b-1.sock`, not `/tmp/.mcp/ab-1.sock`. -/
theorem socket_path_sanitized_counterexample :
    run_daemon_socket_path "a/b" 1 = "/tmp/.mcp/a/b-1.sock" ∧
    spec_socket_path "a/b" 1 = "/tmp/.mcp/ab-1.sock" ∧
    run_daemon_socket_path "a/b" 1 ≠ spec_socket_path "a/b" 1 ∧
    get_socket_path_model "a/b" "1".data ≠ spec_socket_path "a/b" 1 ∧
    start_expected_socket_path "a/b" 1 ≠ spec_socket_path "a/b" 1 := by
  refine ⟨rfl, rfl, ?_, ?_, ?_⟩ <;> decide

/-- C1 (amended): the socket path is a deterministic function of the *raw*
identifier and the daemon's process id: the path bound by `run_daemon`,
the path reconstructed by `get_socket_path` (whenever the PID file's
trimmed contents are the decimal pid), and the path `start` polls for all
equal `/tmp/.mcp` joined with `<identifier>-<daemon-pid>.sock`. -/
theorem socket_path_raw_deterministic (name : String) (pid : Nat)
    (contents : List Char) (h : rust_trim contents = (toString pid).data) :
    get_socket_path_model name contents = run_daemon_socket_path name pid ∧
    start_expected_socket_path name pid = run_daemon_socket_path name pid := by
  refine ⟨?_, rfl⟩
  unfold get_socket_path_model run_daemon_socket_path
  rw [h, string_mk_data]

theorem socket_path_raw_deterministic_witness :
    rust_trim " 1\n".data = (toString 1).data ∧
    (get_socket_path_model "x" " 1\n".data = run_daemon_socket_path "x" 1 ∧
     start_expected_socket_path "x" 1 = run_daemon_socket_path "x" 1) :=
  ⟨by decide, socket_path_raw_deterministic "x" 1 " 1\n".data (by decide)⟩

/-! ## C4: the liveness probe -/

/-- C4: `is_running` returns `false` when the PID file is absent; returns
an error (never silently `false`) when the trimmed contents do not parse
as a pid; and for a parsed pid the non-signaling probe maps ESRCH to not
running, EPERM to running, success to running, and any other probe error
to not running. -/
theorem is_running_spec (probe : Int → ProbeResult) (s : List Char) (pid : Int) :
    is_running_model .absent probe = .ok false ∧
    (parse_i32 (rust_trim s) = none →
      is_running_model (.content s) probe = .error (.invalidPid (rust_trim s))) ∧
    (parse_i32 (rust_trim s) = some pid →
      (probe pid = .esrch → is_running_model (.content s) probe = .ok false) ∧
      (probe pid = .eperm → is_running_model (.content s) probe = .ok true) ∧
      (probe pid = .ok → is_running_model (.content s) probe = .ok true) ∧
      (probe pid = .other → is_running_model (.content s) probe = .ok false)) := by
  refine ⟨rfl, ?_, ?_⟩
  · intro h
    simp [is_running_model, h]
  · intro h
    refine ⟨?_, ?_, ?_, ?_⟩ <;> intro hp <;> simp [is_running_model, h, hp]

theorem is_running_spec_witness :
    (parse_i32 (rust_trim "abc".data) = none ∧
     is_running_model (.content "abc".data) (fun _ => .ok) =
       .error (.invalidPid (rust_trim "abc".data))) ∧
    (parse_i32 (rust_trim " 42 ".data) = some 42 ∧
     is_running_model (.content " 42 ".data) (fun _ => .esrch) = .ok false) := by
  refine ⟨⟨by decide, ?_⟩, ⟨by decide, ?_⟩⟩
  · exact (is_running_spec (fun _ => .ok) "abc".data 0).2.1 (by decide)
  · exact (((is_running_spec (fun _ => .esrch) " 42 ".data 42).2.2 (by decide)).1) rfl

/-! ## C6: request-id allocation -/

theorem runOps_ids (ops : List SessionOp) :
    ∀ rid, rid + List.countP opAllocates ops < 2 ^ 64 →
      (runOps rid ops).2 = List.range' (rid + 1) (List.countP opAllocates ops) := by
  induction ops with
  | nil => intro rid _; rfl
  | cons op rest ih =>
    intro rid h
    by_cases ha : opAllocates op = true
    · rw [List.countP_cons_of_pos _ _ ha] at h ⊢
      have h1 : rid + 1 < 2 ^ 64 := by omega
      have hne : next_id rid = (rid + 1, rid + 1) := by
        show ((rid + 1) % 2 ^ 64, (rid + 1) % 2 ^ 64) = (rid + 1, rid + 1)
        rw [Nat.mod_eq_of_lt h1]
      have ih' := ih (rid + 1) (by omega)
      simp only [runOps, ha, if_true, hne, ih']
      rfl
    · rw [List.countP_cons_of_neg _ _ (by simpa using ha)] at h ⊢
      simp only [runOps, ha, if_false]
      exact ih rid h

/-- C6: starting from counter value `rid`, as long as the `u64` counter
cannot wrap, the id-allocating operations (initialize, call, listTools)
receive the fresh, strictly increasing ids `rid+1, rid+2, ...` in order,
and a notification allocates no id at all. -/
theorem request_ids_strictly_increasing (rid : Nat) (ops : List SessionOp)
    (h : rid + List.countP opAllocates ops < 2 ^ 64) :
    (runOps rid ops).2 = List.range' (rid + 1) (List.countP opAllocates ops) ∧
    List.Pairwise (· < ·) (runOps rid ops).2 ∧
    runOps rid (SessionOp.notifyOp :: ops) = runOps rid ops := by
  refine ⟨runOps_ids ops rid h, ?_, rfl⟩
  rw [runOps_ids ops rid h]
  exact List.pairwise_lt_range' _ _

theorem request_ids_strictly_increasing_witness :
    (0 : Nat) + List.countP opAllocates
      [SessionOp.initOp, .callOp, .notifyOp, .listToolsOp, .callOp] < 2 ^ 64 ∧
    ((runOps 0 [SessionOp.initOp, .callOp, .notifyOp, .listToolsOp, .callOp]).2 =
       List.range' 1 (List.countP opAllocates
         [SessionOp.initOp, .callOp, .notifyOp, .listToolsOp, .callOp]) ∧
     List.Pairwise (· < ·)
       (runOps 0 [SessionOp.initOp, .callOp, .notifyOp, .listToolsOp, .callOp]).2 ∧
     runOps 0 (SessionOp.notifyOp ::
         [SessionOp.initOp, .callOp, .notifyOp, .listToolsOp, .callOp]) =
       runOps 0 [SessionOp.initOp, .callOp, .notifyOp, .listToolsOp, .callOp]) :=
  ⟨by decide,
   request_ids_strictly_increasing 0
     [SessionOp.initOp, .callOp, .notifyOp, .listToolsOp, .callOp] (by decide)⟩

/-! ## C3: tool-level vs protocol-level failure -/

/-- C3: on a tools/call response: `isError: true` with an extractable
first-content-item text `s` fails with a message containing `s`
(`Tool Error: s`); `isError: true` without such a text fails with the
generic fallback; `isError` false or absent is not a failure; and a
protocol-level failure occurs exactly when the response envelope has an
`error` field. -/
theorem call_tool_isError_spec (r : Json) (s : String) (e : Json) :
    (Json.get r "error" = none →
     Json.get (Json.index r "result") "isError" = some (.bool true) →
     tool_error_text (Json.index r "result") = some s →
     call_tool_result r = .error (.tool ("Tool Error: " ++ s))) ∧
    (Json.get r "error" = none →
     Json.get (Json.index r "result") "isError" = some (.bool true) →
     tool_error_text (Json.index r "result") = none →
     call_tool_result r = .error (.tool "Tool Error: Tool execution failed")) ∧
    (Json.get r "error" = none →
     (Json.get (Json.index r "result") "isError" = none ∨
      Json.get (Json.index r "result") "isError" = some (.bool false)) →
     call_tool_result r = .ok (Json.index r "result")) ∧
    (Json.get r "error" = some e → call_tool_result r = .error (.protocol e)) ∧
    (call_tool_result r = .error (.protocol e) → Json.get r "error" = some e) := by
  refine ⟨?_, ?_, ?_, ?_, ?_⟩
  · intro h1 h2 h3
    simp [call_tool_result, send_request_check, h1, h2, h3, Json.as_bool]
  · intro h1 h2 h3
    simp [call_tool_result, send_request_check, h1, h2, h3, Json.as_bool]
  · intro h1 h2
    rcases h2 with h2 | h2 <;>
      simp [call_tool_result, send_request_check, h1, h2, Json.as_bool]
  · intro h
    simp [call_tool_result, send_request_check, h]
  · intro h
    cases he : Json.get r "error" with
    | some e' =>
      have : call_tool_result r = .error (.protocol e') := by
        simp [call_tool_result, send_request_check, he]
      rw [this] at h
      simp only [Except.error.injEq, CallErr.protocol.injEq] at h
      rw [h]
    | none =>
      exfalso
      rcases hb : (Json.get (Json.index r "result") "isError").bind Json.as_bool
        with _ | b
      · simp [call_tool_result, send_request_check, he, hb] at h
      · cases b <;> simp [call_tool_result, send_request_check, he, hb] at h

theorem call_tool_isError_spec_witness :
    call_tool_result (.obj [("result", .obj [("isError", .bool true),
        ("content", .arr [.obj [("text", .str "boom")]])])]) =
      .error (.tool "Tool Error: boom") ∧
    call_tool_result (.obj [("result", .obj [("isError", .bool true)])]) =
      .error (.tool "Tool Error: Tool execution failed") ∧
    call_tool_result (.obj [("result", .obj [("x", .num 0)])]) =
      .ok (.obj [("x", .num 0)]) ∧
    call_tool_result (.obj [("result", .obj [("isError", .bool false)])]) =
      .ok (.obj [("isError", .bool false)]) ∧
    call_tool_result (.obj [("error", .str "down")]) =
      .error (.protocol (.str "down")) := by
  refine ⟨?_, ?_, ?_, ?_, ?_⟩
  · exact (call_tool_isError_spec _ "boom" .null).1 rfl rfl rfl
  · exact (call_tool_isError_spec _ "" .null).2.1 rfl rfl rfl
  · exact (call_tool_isError_spec _ "" .null).2.2.1 rfl (Or.inl rfl)
  · exact (call_tool_isError_spec _ "" .null).2.2.1 rfl (Or.inr rfl)
  · exact (call_tool_isError_spec _ "" (.str "down")).2.2.2.1 rfl

/-! ## C5: daemon path vs direct path -/

theorem handle_client_core_daemon_request (respOf : String → Json → Json)
    (listTools : Except CallErr Json) (tool : String) (args : Json) :
    handle_client_core (fun n a => call_tool_result (respOf n a)) listTools
        (mkDaemonRequest tool args) =
      (match call_tool_result (respOf tool args) with
       | .ok result => .ok (mkOkEnvelope (Json.num 1) result)
       | .error e => .ok (mkErrEnvelope (Json.num 1) e.render)) := by
  rfl

/-- C5: against a deterministic engine (modelled as the response envelope
`respOf tool args`, independent of the request id), the daemon path
(`call_via_daemon` through the IPC server's `handle_client` into the
session's `call_tool`) succeeds with result `r` exactly when the direct
fresh-session `call_tool` with the same arguments succeeds with the same
`r`. -/
theorem daemon_direct_equivalence (respOf : String → Json → Json)
    (listTools : Except CallErr Json) (tool : String) (args : Json) (r : Json) :
    direct_call_model respOf tool args = .ok r ↔
      call_via_daemon_model respOf listTools tool args = .ok r := by
  unfold call_via_daemon_model direct_call_model
  rw [handle_client_core_daemon_request]
  rcases hd : call_tool_result (respOf tool args) with e | v
  · simp [mkErrEnvelope, Json.get, Json.lookupField]
  · simp [mkOkEnvelope, Json.get, Json.lookupField, Json.index]

/-! ## C7: the IPC request-size bound -/

/-- C7: for every IPC connection the server processes exactly one request
line; a line of more than `MAX_REQUEST_SIZE` (1 MiB) bytes is rejected
with an error, and — since the statement holds for *every* parse function
— the rejection happens before any JSON parsing of the request is
attempted. -/
theorem oversized_request_rejected (parse : List Char → Option Json)
    (callTool : String → Json → Except CallErr Json)
    (listTools : Except CallErr Json) (line : List Char)
    (h : rust_len_bytes line > max_request_size) :
    handle_client_line parse callTool listTools line =
      .error (.tooLarge (rust_len_bytes line)) := by
  simp [handle_client_line, h]

theorem rust_len_bytes_cons (c : Char) (l : List Char) :
    rust_len_bytes (c :: l) = c.utf8Size + rust_len_bytes l := rfl

theorem rust_len_bytes_replicate_a : ∀ n, rust_len_bytes (List.replicate n 'a') = n := by
  intro n
  induction n with
  | zero => rfl
  | succ n ih =>
    rw [List.replicate_succ, rust_len_bytes_cons, ih]
    show 1 + n = n + 1
    omega

theorem oversized_request_rejected_witness :
    rust_len_bytes (List.replicate 1048577 'a') > max_request_size ∧
    handle_client_line (fun _ => none) (fun _ _ => .ok .null) (.ok .null)
        (List.replicate 1048577 'a') =
      .error (.tooLarge (rust_len_bytes (List.replicate 1048577 'a'))) := by
  have h : rust_len_bytes (List.replicate 1048577 'a') > max_request_size := by
    rw [rust_len_bytes_replicate_a]
    decide
  exact ⟨h, oversized_request_rejected _ _ _ _ h⟩

/-! ## C8: the stop sequence -/

theorem stop_poll_all_running (env : StopEnv) :
    ∀ n k, (∀ j, k ≤ j → j < k + n →
        is_running_model env.pidFile (env.probes j) = .ok true) →
      stop_poll env k n =
        if env.sigkillOk then .ok (.forced, true, env.socketExists)
        else .error .sigkillFailed := by
  intro n
  induction n with
  | zero => intro k _; rfl
  | succ n ih =>
    intro k h
    have hk := h k (Nat.le_refl k) (by omega)
    simp only [stop_poll, hk]
    exact ih (k + 1) (fun j h1 h2 => h j (by omega) (by omega))

theorem stop_poll_finds (env : StopEnv) :
    ∀ n k d, d < n →
      (∀ j, k ≤ j → j < k + d →
        is_running_model env.pidFile (env.probes j) = .ok true) →
      is_running_model env.pidFile (env.probes (k + d)) = .ok false →
      stop_poll env k n = .ok (.graceful, true, env.socketExists) := by
  intro n
  induction n with
  | zero => intro k d hd; omega
  | succ n ih =>
    intro k d hd hrun hstop
    cases d with
    | zero =>
      have hstop' : is_running_model env.pidFile (env.probes k) = .ok false := by
        simpa using hstop
      simp only [stop_poll, hstop']
    | succ d =>
      have hk := hrun k (Nat.le_refl k) (by omega)
      simp only [stop_poll, hk]
      exact ih (k + 1) d (by omega)
        (fun j h1 h2 => hrun j (by omega) (by omega))
        (by have : k + 1 + d = k + (d + 1) := by omega
            rw [this]; exact hstop)

/-- C8 counterexample: the claim says that when the daemon is still alive
after the grace window, SIGKILL is sent, both files are removed
*unconditionally*, and `stop` returns success.  But the code propagates a
failure of the SIGKILL `kill` call (possible for a live process owned by
another user, where the probe reports EPERM ⇒ running) *before* removing
either file: in that environment `stop` returns an error and removes
nothing. -/
theorem stop_forced_claim_counterexample :
    stop_model ⟨.content "1".data, fun _ _ => .ok, true, false, true⟩ =
      .error .sigkillFailed := by
  rfl

/-- C8 (amended): `stop` fails if the daemon is not running; if liveness
ceases at the k-th poll of the grace window, the PID file and the derived
socket file are removed and `stop` succeeds gracefully; if the process is
still alive for the whole window, SIGKILL is sent, and *if that signal is
sent successfully* both files are removed and `stop` returns success
(forced), while a failure to send SIGKILL is returned as an error with
neither file removed. -/
theorem stop_spec (env : StopEnv) (k : Nat) :
    (is_running_model env.pidFile (env.probes 0) = .ok false →
      stop_model env = .error .notRunning) ∧
    (is_running_model env.pidFile (env.probes 0) = .ok true →
     env.sigtermOk = true →
     1 ≤ k → k ≤ 10 →
     (∀ j, 1 ≤ j → j < k →
       is_running_model env.pidFile (env.probes j) = .ok true) →
     is_running_model env.pidFile (env.probes k) = .ok false →
     stop_model env = .ok (.graceful, true, env.socketExists)) ∧
    (is_running_model env.pidFile (env.probes 0) = .ok true →
     env.sigtermOk = true →
     (∀ j, 1 ≤ j → j ≤ 10 →
       is_running_model env.pidFile (env.probes j) = .ok true) →
     (env.sigkillOk = true →
        stop_model env = .ok (.forced, true, env.socketExists)) ∧
     (env.sigkillOk = false → stop_model env = .error .sigkillFailed)) := by
  have hcontent : is_running_model env.pidFile (env.probes 0) = .ok true →
      ∃ s pid, env.pidFile = .content s ∧ parse_i32 (rust_trim s) = some pid := by
    intro h
    cases hf : env.pidFile with
    | absent => rw [hf] at h; exact absurd h (by simp [is_running_model])
    | unreadable => rw [hf] at h; exact absurd h (by simp [is_running_model])
    | content s =>
      rw [hf] at h
      cases hp : parse_i32 (rust_trim s) with
      | none =>
        rw [is_running_model, hp] at h
        exact absurd h (by simp)
      | some pid => exact ⟨s, pid, rfl, hp⟩
  refine ⟨?_, ?_, ?_⟩
  · intro h
    simp only [stop_model, h]
  · intro h0 hT h1 h10 hrun hstop
    obtain ⟨s, pid, hf, hp⟩ := hcontent h0
    have hpoll : stop_poll env 1 10 = .ok (.graceful, true, env.socketExists) :=
      stop_poll_finds env 10 1 (k - 1) (by omega)
        (fun j hj1 hj2 => hrun j hj1 (by omega))
        (by have hkk : 1 + (k - 1) = k := by omega
            rw [hkk]; exact hstop)
    simp only [stop_model, h0]
    simp [hf, hp, hT, hpoll]
  · intro h0 hT hrun
    obtain ⟨s, pid, hf, hp⟩ := hcontent h0
    have hpoll := stop_poll_all_running env 10 1
      (fun j hj1 hj2 => hrun j hj1 (by omega))
    constructor <;> intro hK
    · simp only [stop_model, h0]
      simp [hf, hp, hT, hpoll, hK]
    · simp only [stop_model, h0]
      simp [hf, hp, hT, hpoll, hK]

theorem stop_spec_witness :
    stop_model ⟨.content "7".data, fun j _ => if j = 0 then .ok else .esrch,
        true, true, true⟩ = .ok (.graceful, true, true) ∧
    stop_model ⟨.content "7".data, fun _ _ => .ok, true, true, true⟩ =
      .ok (.forced, true, true) := by
  constructor
  · exact (stop_spec ⟨.content "7".data,
      fun j _ => if j = 0 then .ok else .esrch, true, true, true⟩ 1).2.1
      rfl rfl (by omega) (by omega)
      (fun j hj1 hj2 => absurd (Nat.lt_of_lt_of_le hj2 hj1) (Nat.lt_irrefl j))
      rfl
  · exact ((stop_spec ⟨.content "7".data, fun _ _ => .ok, true, true, true⟩
      0).2.2 rfl rfl (fun j _ _ => rfl)).1 rfl

/-! ## C9: template expansion — helper lemmas -/

theorem isPrefixList_append_self : ∀ (p b : List Char), isPrefixList p (p ++ b) = true := by
  intro p
  induction p with
  | nil => intro b; rfl
  | cons x p' ih =>
    intro b
    simp only [List.cons_append, isPrefixList, beq_self_eq_true, Bool.true_and]
    exact ih b

theorem eq_append_of_isPrefixList :
    ∀ (p s : List Char), isPrefixList p s = true → s = p ++ s.drop p.length := by
  intro p
  induction p with
  | nil => intro s _; simp
  | cons x p' ih =>
    intro s h
    cases s with
    | nil => simp [isPrefixList] at h
    | cons y t =>
      simp only [isPrefixList, Bool.and_eq_true, beq_iff_eq] at h
      obtain ⟨hxy, hp⟩ := h
      subst hxy
      simp only [List.length_cons, List.drop_succ_cons, List.cons_append, List.cons.injEq]
      exact ⟨trivial, ih t hp⟩

theorem length_drop_cons_le (k : Nat) (hk : 0 < k) (c : Char) (t : List Char)
    (m : Nat) (hm : t.length ≤ m) : ((c :: t).drop k).length ≤ m := by
  simp only [List.length_drop, List.length_cons]
  omega

theorem replaceFuel_congr (p v : List Char) :
    ∀ f1 f2 s, s.length ≤ f1 → s.length ≤ f2 →
      replaceFuel p v f1 s = replaceFuel p v f2 s := by
  intro f1
  induction f1 with
  | zero =>
    intro f2 s h1 _
    have hs : s = [] := List.eq_nil_of_length_eq_zero (Nat.le_zero.mp h1)
    subst hs
    cases f2 <;> rfl
  | succ f1 ih =>
    intro f2 s h1 h2
    cases s with
    | nil => cases f2 <;> rfl
    | cons c t =>
      cases f2 with
      | zero => simp at h2
      | succ g =>
        simp only [List.length_cons, Nat.succ_le_succ_iff] at h1 h2
        by_cases hc : p ≠ [] ∧ isPrefixList p (c :: t) = true
        · have hp : 0 < p.length := List.length_pos.mpr hc.1
          simp only [replaceFuel, if_pos hc]
          rw [ih g _ (length_drop_cons_le p.length hp c t f1 h1)
                (length_drop_cons_le p.length hp c t g h2)]
        · simp only [replaceFuel, if_neg hc]
          rw [ih g t h1 h2]

theorem replaceList_cons_pos (p v : List Char) (c : Char) (t : List Char)
    (h1 : p ≠ []) (h2 : isPrefixList p (c :: t) = true) :
    replaceList p v (c :: t) = v ++ replaceList p v ((c :: t).drop p.length) := by
  have hp : 0 < p.length := List.length_pos.mpr h1
  show replaceFuel p v (c :: t).length (c :: t) = _
  simp only [List.length_cons, replaceFuel, if_pos (And.intro h1 h2)]
  congr 1
  apply replaceFuel_congr
  · simp only [List.length_drop, List.length_cons]
    omega
  · exact Nat.le_refl _

theorem replaceList_cons_neg (p v : List Char) (c : Char) (t : List Char)
    (h : ¬ (p ≠ [] ∧ isPrefixList p (c :: t) = true)) :
    replaceList p v (c :: t) = c :: replaceList p v t := by
  show replaceFuel p v (c :: t).length (c :: t) = _
  simp only [List.length_cons, replaceFuel, if_neg h]
  rfl

theorem substFuel_congr (v1 v2 v3 : List Char) :
    ∀ f1 f2 s, s.length ≤ f1 → s.length ≤ f2 →
      substFuel v1 v2 v3 f1 s = substFuel v1 v2 v3 f2 s := by
  have hq1 : 0 < pat_profile_dir.length := by decide
  have hq2 : 0 < pat_pid.length := by decide
  have hq3 : 0 < pat_cwd.length := by decide
  intro f1
  induction f1 with
  | zero =>
    intro f2 s h1 _
    have hs : s = [] := List.eq_nil_of_length_eq_zero (Nat.le_zero.mp h1)
    subst hs
    cases f2 <;> rfl
  | succ f1 ih =>
    intro f2 s h1 h2
    cases s with
    | nil => cases f2 <;> rfl
    | cons c t =>
      cases f2 with
      | zero => simp at h2
      | succ g =>
        simp only [List.length_cons, Nat.succ_le_succ_iff] at h1 h2
        simp only [substFuel]
        by_cases hA : isPrefixList pat_profile_dir (c :: t) = true
        · simp only [if_pos hA]
          rw [ih g _ (length_drop_cons_le _ hq1 c t f1 h1)
                (length_drop_cons_le _ hq1 c t g h2)]
        · simp only [if_neg hA]
          by_cases hB : isPrefixList pat_pid (c :: t) = true
          · simp only [if_pos hB]
            rw [ih g _ (length_drop_cons_le _ hq2 c t f1 h1)
                  (length_drop_cons_le _ hq2 c t g h2)]
          · simp only [if_neg hB]
            by_cases hC : isPrefixList pat_cwd (c :: t) = true
            · simp only [if_pos hC]
              rw [ih g _ (length_drop_cons_le _ hq3 c t f1 h1)
                    (length_drop_cons_le _ hq3 c t g h2)]
            · simp only [if_neg hC]
              rw [ih g t h1 h2]

theorem substSpec_cons_1 (v1 v2 v3 : List Char) (c : Char) (t : List Char)
    (hA : isPrefixList pat_profile_dir (c :: t) = true) :
    substSpec v1 v2 v3 (c :: t) =
      v1 ++ substSpec v1 v2 v3 ((c :: t).drop pat_profile_dir.length) := by
  show substFuel v1 v2 v3 (c :: t).length (c :: t) = _
  simp only [List.length_cons, substFuel, if_pos hA]
  congr 1
  apply substFuel_congr
  · have hq : 0 < pat_profile_dir.length ∧ 0 < pat_pid.length ∧ 0 < pat_cwd.length := by decide
    simp only [List.length_drop, List.length_cons]
    omega
  · exact Nat.le_refl _

theorem substSpec_cons_2 (v1 v2 v3 : List Char) (c : Char) (t : List Char)
    (hA : ¬ isPrefixList pat_profile_dir (c :: t) = true)
    (hB : isPrefixList pat_pid (c :: t) = true) :
    substSpec v1 v2 v3 (c :: t) =
      v2 ++ substSpec v1 v2 v3 ((c :: t).drop pat_pid.length) := by
  show substFuel v1 v2 v3 (c :: t).length (c :: t) = _
  simp only [List.length_cons, substFuel, if_neg hA, if_pos hB]
  congr 1
  apply substFuel_congr
  · have hq : 0 < pat_profile_dir.length ∧ 0 < pat_pid.length ∧ 0 < pat_cwd.length := by decide
    simp only [List.length_drop, List.length_cons]
    omega
  · exact Nat.le_refl _

theorem substSpec_cons_3 (v1 v2 v3 : List Char) (c : Char) (t : List Char)
    (hA : ¬ isPrefixList pat_profile_dir (c :: t) = true)
    (hB : ¬ isPrefixList pat_pid (c :: t) = true)
    (hC : isPrefixList pat_cwd (c :: t) = true) :
    substSpec v1 v2 v3 (c :: t) =
      v3 ++ substSpec v1 v2 v3 ((c :: t).drop pat_cwd.length) := by
  show substFuel v1 v2 v3 (c :: t).length (c :: t) = _
  simp only [List.length_cons, substFuel, if_neg hA, if_neg hB, if_pos hC]
  congr 1
  apply substFuel_congr
  · have hq : 0 < pat_profile_dir.length ∧ 0 < pat_pid.length ∧ 0 < pat_cwd.length := by decide
    simp only [List.length_drop, List.length_cons]
    omega
  · exact Nat.le_refl _

theorem substSpec_cons_0 (v1 v2 v3 : List Char) (c : Char) (t : List Char)
    (hA : ¬ isPrefixList pat_profile_dir (c :: t) = true)
    (hB : ¬ isPrefixList pat_pid (c :: t) = true)
    (hC : ¬ isPrefixList pat_cwd (c :: t) = true) :
    substSpec v1 v2 v3 (c :: t) = c :: substSpec v1 v2 v3 t := by
  show substFuel v1 v2 v3 (c :: t).length (c :: t) = _
  simp only [List.length_cons, substFuel, if_neg hA, if_neg hB, if_neg hC]
  rfl

theorem replaceList_append_skip (p v : List Char) (hp : p.head? = some '\x7b') :
    ∀ a b, (∀ c ∈ a, c ≠ '\x7b') → replaceList p v (a ++ b) = a ++ replaceList p v b := by
  intro a
  induction a with
  | nil => intro b _; rfl
  | cons x a' ih =>
    intro b ha
    have hx : x ≠ '\x7b' := ha x (List.mem_cons_self x a')
    have hnc : ¬ (p ≠ [] ∧ isPrefixList p (x :: (a' ++ b)) = true) := by
      rintro ⟨hne, hpre⟩
      cases p with
      | nil => exact hne rfl
      | cons p0 p'' =>
        have hp0 : p0 = '\x7b' := by simpa using hp
        subst hp0
        simp only [isPrefixList, Bool.and_eq_true, beq_iff_eq] at hpre
        exact hx hpre.1.symm
    rw [List.cons_append, replaceList_cons_neg p v x (a' ++ b) hnc,
        ih b (fun c hc => ha c (List.mem_cons_of_mem x hc))]
    rfl

theorem isPrefixList_of_replaceList (p : List Char) (d : Char) (vr : List Char) :
    ∀ t w, (∀ c ∈ w, c ≠ d) →
      isPrefixList w (replaceList p (d :: vr) t) = true → isPrefixList w t = true := by
  intro t
  induction t with
  | nil =>
    intro w _ h
    exact h
  | cons c t' ih =>
    intro w hw h
    by_cases hc : p ≠ [] ∧ isPrefixList p (c :: t') = true
    · rw [replaceList_cons_pos p (d :: vr) c t' hc.1 hc.2] at h
      cases w with
      | nil => rfl
      | cons w0 w' =>
        exfalso
        rw [List.cons_append] at h
        simp only [isPrefixList, Bool.and_eq_true, beq_iff_eq] at h
        exact hw w0 (List.mem_cons_self w0 w') h.1
    · rw [replaceList_cons_neg p (d :: vr) c t' hc] at h
      cases w with
      | nil => rfl
      | cons w0 w' =>
        simp only [isPrefixList, Bool.and_eq_true, beq_iff_eq] at h ⊢
        exact ⟨h.1, ih w' (fun ch hch => hw ch (List.mem_cons_of_mem w0 hch)) h.2⟩

theorem substSpec_eq_self (v1 v2 v3 : List Char) :
    ∀ s, containsPat pat_profile_dir s = false → containsPat pat_pid s = false →
      containsPat pat_cwd s = false → substSpec v1 v2 v3 s = s := by
  intro s
  induction s with
  | nil => intro _ _ _; rfl
  | cons c t ih =>
    intro h1 h2 h3
    simp only [containsPat, Bool.or_eq_false_iff] at h1 h2 h3
    rw [substSpec_cons_0 v1 v2 v3 c t (by simp [h1.1]) (by simp [h2.1]) (by simp [h3.1]),
        ih h1.2 h2.2 h3.2]

theorem isPrefixList_pid_cwd (X : List Char) :
    isPrefixList pat_pid ('\x7b' :: ("cwd\x7d".data ++ X)) = false := by
  show (('\x7b' == '\x7b') &&
    (('p' == 'c') && isPrefixList "id\x7d".data ("wd\x7d".data ++ X))) = false
  rw [show (('p' : Char) == 'c') = false from by decide]
  simp

theorem seq_eq_subst_aux (v1 v2 v3 : List Char)
    (hv1h : ∃ r, v1 = '.' :: r)
    (hv1b : ∀ c ∈ v1, c ≠ '\x7b')
    (hv2d : ∀ c ∈ v2, c.isDigit = true)
    (hv2ne : v2 ≠ []) :
    ∀ n s, s.length ≤ n →
      replaceList pat_cwd v3 (replaceList pat_pid v2 (replaceList pat_profile_dir v1 s)) =
        substSpec v1 v2 v3 s := by
  obtain ⟨v1r, hv1⟩ := hv1h
  obtain ⟨d2, v2r, hv2⟩ : ∃ d r, v2 = d :: r := by
    cases v2 with
    | nil => exact absurd rfl hv2ne
    | cons a b => exact ⟨a, b, rfl⟩
  have hd2 : d2.isDigit = true := hv2d d2 (by rw [hv2]; exact List.mem_cons_self d2 v2r)
  have hv2b : ∀ c ∈ v2, c ≠ '\x7b' := by
    intro c hc he
    have hdig := hv2d c hc
    rw [he] at hdig
    exact absurd hdig (by decide)
  have hwpid : ∀ ch ∈ "pid\x7d".data, ch ≠ '.' := by decide
  have hwcwd1 : ∀ ch ∈ "cwd\x7d".data, ch ≠ '.' := by decide
  have hdigf : ∀ x ∈ "cwd\x7d".data, x.isDigit = false := by decide
  have hwcwd2 : ∀ ch ∈ "cwd\x7d".data, ch ≠ d2 := by
    intro ch hch he
    have hf := hdigf ch hch
    rw [he] at hf
    rw [hf] at hd2
    exact absurd hd2 (by decide)
  intro n
  induction n with
  | zero =>
    intro s hs
    have hnil : s = [] := List.eq_nil_of_length_eq_zero (Nat.le_zero.mp hs)
    subst hnil
    rfl
  | succ n ih =>
    intro s hs
    cases s with
    | nil => rfl
    | cons c t =>
      simp only [List.length_cons, Nat.succ_le_succ_iff] at hs
      by_cases hA : isPrefixList pat_profile_dir (c :: t) = true
      · have e1 := replaceList_cons_pos pat_profile_dir v1 c t (by decide) hA
        have e2 := replaceList_append_skip pat_pid v2 rfl v1
          (replaceList pat_profile_dir v1 ((c :: t).drop pat_profile_dir.length)) hv1b
        have e3 := replaceList_append_skip pat_cwd v3 rfl v1
          (replaceList pat_pid v2
            (replaceList pat_profile_dir v1 ((c :: t).drop pat_profile_dir.length))) hv1b
        rw [e1, e2, e3, ih _ (length_drop_cons_le _ (by decide) c t n hs),
            substSpec_cons_1 v1 v2 v3 c t hA]
      · by_cases hB : isPrefixList pat_pid (c :: t) = true
        · have hsplit := eq_append_of_isPrefixList pat_pid (c :: t) hB
          rw [show pat_pid ++ (c :: t).drop pat_pid.length =
              '\x7b' :: ("pid\x7d".data ++ (c :: t).drop pat_pid.length) from rfl] at hsplit
          injection hsplit with hc0 ht0
          subst hc0
          have e1 : replaceList pat_profile_dir v1 ('\x7b' :: t) =
              '\x7b' :: replaceList pat_profile_dir v1 t :=
            replaceList_cons_neg _ _ _ _ (fun hx => hA hx.2)
          have e2 : replaceList pat_profile_dir v1 t =
              "pid\x7d".data ++
                replaceList pat_profile_dir v1 (('\x7b' :: t).drop pat_pid.length) := by
            conv_lhs => rw [ht0]
            exact replaceList_append_skip pat_profile_dir v1 rfl _ _ (by decide)
          have e12 : replaceList pat_profile_dir v1 ('\x7b' :: t) =
              pat_pid ++ replaceList pat_profile_dir v1 (('\x7b' :: t).drop pat_pid.length) := by
            rw [e1, e2]
            rfl
          have e3 : ∀ X, replaceList pat_pid v2 (pat_pid ++ X) = v2 ++ replaceList pat_pid v2 X := by
            intro X
            rw [show pat_pid ++ X = '\x7b' :: ("pid\x7d".data ++ X) from rfl,
                replaceList_cons_pos pat_pid v2 '\x7b' ("pid\x7d".data ++ X) (by decide)
                  (isPrefixList_append_self pat_pid X)]
            rfl
          rw [e12, e3 (replaceList pat_profile_dir v1 (('\x7b' :: t).drop pat_pid.length)),
              replaceList_append_skip pat_cwd v3 rfl v2 _ hv2b,
              ih _ (length_drop_cons_le _ (by decide) '\x7b' t n hs),
              substSpec_cons_2 v1 v2 v3 '\x7b' t hA hB]
        · by_cases hC : isPrefixList pat_cwd (c :: t) = true
          · have hsplit := eq_append_of_isPrefixList pat_cwd (c :: t) hC
            rw [show pat_cwd ++ (c :: t).drop pat_cwd.length =
                '\x7b' :: ("cwd\x7d".data ++ (c :: t).drop pat_cwd.length) from rfl] at hsplit
            injection hsplit with hc0 ht0
            subst hc0
            have e1 : replaceList pat_profile_dir v1 ('\x7b' :: t) =
                '\x7b' :: replaceList pat_profile_dir v1 t :=
              replaceList_cons_neg _ _ _ _ (fun hx => hA hx.2)
            have e2 : replaceList pat_profile_dir v1 t =
                "cwd\x7d".data ++
                  replaceList pat_profile_dir v1 (('\x7b' :: t).drop pat_cwd.length) := by
              conv_lhs => rw [ht0]
              exact replaceList_append_skip pat_profile_dir v1 rfl _ _ (by decide)
            have e12 : replaceList pat_profile_dir v1 ('\x7b' :: t) =
                pat_cwd ++ replaceList pat_profile_dir v1 (('\x7b' :: t).drop pat_cwd.length) := by
              rw [e1, e2]
              rfl
            have e3 : ∀ X, replaceList pat_pid v2 (pat_cwd ++ X) =
                pat_cwd ++ replaceList pat_pid v2 X := by
              intro X
              rw [show pat_cwd ++ X = '\x7b' :: ("cwd\x7d".data ++ X) from rfl,
                  replaceList_cons_neg pat_pid v2 '\x7b' ("cwd\x7d".data ++ X)
                    (by rintro ⟨_, hpre⟩
                        rw [isPrefixList_pid_cwd] at hpre
                        exact Bool.false_ne_true hpre),
                  replaceList_append_skip pat_pid v2 rfl "cwd\x7d".data X (by decide)]
              rfl
            have e4 : ∀ X, replaceList pat_cwd v3 (pat_cwd ++ X) =
                v3 ++ replaceList pat_cwd v3 X := by
              intro X
              rw [show pat_cwd ++ X = '\x7b' :: ("cwd\x7d".data ++ X) from rfl,
                  replaceList_cons_pos pat_cwd v3 '\x7b' ("cwd\x7d".data ++ X) (by decide)
                    (isPrefixList_append_self pat_cwd X)]
              rfl
            rw [e12, e3 (replaceList pat_profile_dir v1 (('\x7b' :: t).drop pat_cwd.length)),
                e4 (replaceList pat_pid v2
                  (replaceList pat_profile_dir v1 (('\x7b' :: t).drop pat_cwd.length))),
                ih _ (length_drop_cons_le _ (by decide) '\x7b' t n hs),
                substSpec_cons_3 v1 v2 v3 '\x7b' t hA hB hC]
          · have hB' : ¬ isPrefixList pat_pid (c :: replaceList pat_profile_dir v1 t) = true := by
              intro hpre
              have hpre' : (('\x7b' == c) &&
                  isPrefixList "pid\x7d".data (replaceList pat_profile_dir v1 t)) = true := hpre
              simp only [Bool.and_eq_true, beq_iff_eq] at hpre'
              obtain ⟨hc1, hc2⟩ := hpre'
              rw [hv1] at hc2
              have htr := isPrefixList_of_replaceList pat_profile_dir '.' v1r t
                "pid\x7d".data hwpid hc2
              apply hB
              show (('\x7b' == c) && isPrefixList "pid\x7d".data t) = true
              simp only [Bool.and_eq_true, beq_iff_eq]
              exact ⟨hc1, htr⟩
            have hC' : ¬ isPrefixList pat_cwd
                (c :: replaceList pat_pid v2 (replaceList pat_profile_dir v1 t)) = true := by
              intro hpre
              have hpre' : (('\x7b' == c) && isPrefixList "cwd\x7d".data
                  (replaceList pat_pid v2 (replaceList pat_profile_dir v1 t))) = true := hpre
              simp only [Bool.and_eq_true, beq_iff_eq] at hpre'
              obtain ⟨hc1, hc2⟩ := hpre'
              rw [hv2] at hc2
              have htr1 := isPrefixList_of_replaceList pat_pid d2 v2r
                (replaceList pat_profile_dir v1 t) "cwd\x7d".data hwcwd2 hc2
              rw [hv1] at htr1
              have htr2 := isPrefixList_of_replaceList pat_profile_dir '.' v1r t
                "cwd\x7d".data hwcwd1 htr1
              apply hC
              show (('\x7b' == c) && isPrefixList "cwd\x7d".data t) = true
              simp only [Bool.and_eq_true, beq_iff_eq]
              exact ⟨hc1, htr2⟩
            have e1 := replaceList_cons_neg pat_profile_dir v1 c t (fun hx => hA hx.2)
            have e2 := replaceList_cons_neg pat_pid v2 c
              (replaceList pat_profile_dir v1 t) (fun hx => hB' hx.2)
            have e3 := replaceList_cons_neg pat_cwd v3 c
              (replaceList pat_pid v2 (replaceList pat_profile_dir v1 t)) (fun hx => hC' hx.2)
            rw [e1, e2, e3, ih t hs, substSpec_cons_0 v1 v2 v3 c t hA hB hC]

/-- C9: `expand` equals a single simultaneous substitution pass
(`substSpec`, written from the spec's words): every occurrence of the
three recognized placeholders is substituted (with `{profile_dir}` derived
from the sanitized identifier), substituted text is never re-expanded,
the substitution at each occurrence is independent of the other
occurrences and of their order, everything else — including unrecognized
placeholders — is left verbatim, and a template containing none of the
placeholders is returned unchanged.  The hypotheses say the pid string is
a non-empty decimal numeral, as `std::process::id().to_string()` always
is. -/
theorem expand_template_vars_spec (arg serverName pidStr cwd : List Char)
    (hpid1 : pidStr ≠ []) (hpid2 : ∀ c ∈ pidStr, c.isDigit = true) :
    expand_template_vars arg serverName pidStr cwd =
      substSpec (profile_dir_chars serverName) pidStr cwd arg ∧
    (containsPat pat_profile_dir arg = false → containsPat pat_pid arg = false →
      containsPat pat_cwd arg = false →
      expand_template_vars arg serverName pidStr cwd = arg) := by
  have hv1h : ∃ r, profile_dir_chars serverName = '.' :: r :=
    ⟨"mcp-profile/".data ++ sanitize_server_name serverName, rfl⟩
  have hv1b : ∀ c ∈ profile_dir_chars serverName, c ≠ '\x7b' := by
    intro c hc
    rcases List.mem_append.mp hc with hc1 | hc2
    · have hdot : ∀ x ∈ ".mcp-profile/".data, x ≠ '\x7b' := by decide
      exact hdot c hc1
    · exact (sanitize_no_brace hc2).1
  have hmain := seq_eq_subst_aux (profile_dir_chars serverName) pidStr cwd
    hv1h hv1b hpid2 hpid1 arg.length arg (Nat.le_refl _)
  refine ⟨hmain, fun h1 h2 h3 => ?_⟩
  show replaceList pat_cwd cwd (replaceList pat_pid pidStr
    (replaceList pat_profile_dir (profile_dir_chars serverName) arg)) = arg
  rw [hmain]
  exact substSpec_eq_self _ _ _ arg h1 h2 h3

theorem expand_template_vars_spec_witness :
    ("42".data ≠ ([] : List Char)) ∧ (∀ c ∈ "42".data, c.isDigit = true) ∧
    expand_template_vars "a\x7bpid\x7db-\x7bcwd\x7d".data "srv".data "42".data "/c".data =
      substSpec (profile_dir_chars "srv".data) "42".data "/c".data
        "a\x7bpid\x7db-\x7bcwd\x7d".data ∧
    expand_template_vars "plain \x7bfoo\x7d".data "srv".data "42".data "/c".data =
      "plain \x7bfoo\x7d".data ∧
    expand_template_vars "a\x7bpid\x7db".data "srv".data "42".data "/c".data = "a42b".data := by
  refine ⟨by decide, by decide, ?_, ?_, by decide⟩
  · exact (expand_template_vars_spec "a\x7bpid\x7db-\x7bcwd\x7d".data "srv".data
      "42".data "/c".data (by decide) (by decide)).1
  · exact (expand_template_vars_spec "plain \x7bfoo\x7d".data "srv".data
      "42".data "/c".data (by decide) (by decide)).2 (by decide) (by decide) (by decide)

end McpValve
